import Mathlib

/-!
Verification of the documentation tooling scripts of the App-Store-Connect-CLI
repository (`scripts/check-commands-docs.py`, `scripts/generate-command-docs.py`,
`scripts/update-wall-of-apps.py`).

Strings are modelled as `List Char`.  Python string primitives (`str.splitlines`,
`str.strip`, `str.split`, substring search, `str.lower`, `str.title`) are embedded
as executable Lean functions whose behaviour matches CPython on the character
classes involved.  Regular-expression matches from the source are embedded as the
equivalent deterministic matchers (each regex in the scripts is anchored with
`re.match` and uses only character classes and literal characters, so matching is
equivalent to a maximal-run scan; this equivalence is noted at each matcher).
-/

/-- Convert a string literal to the `List Char` representation used throughout. -/
def tl (s : String) : List Char := s.toList

/-- Python whitespace for `str.isspace`, `str.strip`, `str.split` and the regex
class `\s` on `str` patterns (CPython's Unicode whitespace set). -/
def isPySpace (c : Char) : Bool :=
  c ∈ [' ', '\t', '\n', '\u000b', '\u000c', '\r',
       '\u001c', '\u001d', '\u001e', '\u001f', '\u0085', '\u00a0', '\u1680'] ||
  ('\u2000' ≤ c && c ≤ '\u200a') ||
  c ∈ ['\u2028', '\u2029', '\u202f', '\u205f', '\u3000']

/-- Line boundaries recognised by Python `str.splitlines`. -/
def isLineBreak (c : Char) : Bool :=
  c ∈ ['\n', '\r', '\u000b', '\u000c', '\u001c', '\u001d', '\u001e',
       '\u0085', '\u2028', '\u2029']

/-- Worker for `pySplitlines`: accumulates the current line (reversed). -/
def splitlinesAux : List Char → List Char → List (List Char)
  | [], acc => if acc.isEmpty then [] else [acc.reverse]
  | '\r' :: '\n' :: rest, acc => acc.reverse :: splitlinesAux rest []
  | c :: rest, acc =>
      if isLineBreak c then acc.reverse :: splitlinesAux rest []
      else splitlinesAux rest (c :: acc)

/-- Python `str.splitlines`: splits on Python's line-boundary set (`\r\n` counts
as one boundary) and does not produce a final empty line. -/
def pySplitlines (l : List Char) : List (List Char) := splitlinesAux l []

/-- Python `str.strip` with no argument: remove leading and trailing whitespace. -/
def pyStrip (l : List Char) : List Char :=
  ((l.dropWhile isPySpace).reverse.dropWhile isPySpace).reverse

/-- Worker for `pySplitWs`. -/
def splitWsAux : List Char → List Char → List (List Char)
  | [], acc => if acc.isEmpty then [] else [acc.reverse]
  | c :: rest, acc =>
      if isPySpace c then
        if acc.isEmpty then splitWsAux rest [] else acc.reverse :: splitWsAux rest []
      else splitWsAux rest (c :: acc)

/-- Python `str.split` with no argument: split on runs of whitespace, dropping
empty fields. -/
def pySplitWs (l : List Char) : List (List Char) := splitWsAux l []

/-- Python `str.lower`, restricted to ASCII case mapping (all characters the
scripts compare after lowering are ASCII). -/
def pyLower (l : List Char) : List Char := l.map Char.toLower

/-- First occurrence split: Python `s.split(sep, 1)` returning `some (a, b)` with
`s = a ++ sep ++ b` split at the first occurrence of `sep`, or `none` when `sep`
does not occur in `s` (Python would then return the one-element list `[s]`). -/
def pySplitOnce (sep : List Char) : List Char → Option (List Char × List Char)
  | [] => if sep.isPrefixOf ([] : List Char) then some ([], []) else none
  | c :: rest =>
      if sep.isPrefixOf (c :: rest) then some ([], (c :: rest).drop sep.length)
      else
        match pySplitOnce sep rest with
        | none => none
        | some (a, b) => some (c :: a, b)

/-- Python substring membership `sep in s` (for non-empty `sep`). -/
def containsSub (sep l : List Char) : Bool := (pySplitOnce sep l).isSome

/-- A pattern has no self-overlap: no non-trivial suffix of it is one of its
prefixes.  When this holds, an occurrence of the pattern cannot straddle a
known occurrence, which pins down first-occurrence splits around appends. -/
def borderFree (sep : List Char) : Bool :=
  (List.range sep.length).all fun k => k == 0 || !((sep.drop k).isPrefixOf sep)

/-- Lexicographic comparison of `List Char` by code point: Python `str` `<`. -/
def strLt : List Char → List Char → Bool
  | [], [] => false
  | [], _ :: _ => true
  | _ :: _, [] => false
  | a :: as, b :: bs => if a < b then true else if a = b then strLt as bs else false

/-- `", ".join(...)` etc.: `List.intercalate` does the job; this is a shorthand. -/
def joinWith (sep : List Char) (parts : List (List Char)) : List Char :=
  List.intercalate sep parts

/-! ## `scripts/check-commands-docs.py` -/

/-- Characters of the command-identifier class `[a-z0-9-]`. -/
def isCmdChar (c : Char) : Bool :=
  ('a' ≤ c && c ≤ 'z') || ('0' ≤ c && c ≤ '9') || c = '-'

/-- The matcher compiled from `re.match(r"^\s{2}([a-z0-9-]+):\s", line)` used by
`parse_live_commands`: two whitespace characters, then a maximal non-empty run
of `[a-z0-9-]`, then a colon and one whitespace character.  (Backtracking cannot
shorten the token run: a shorter run would be followed by another `[a-z0-9-]`
character, never by `:`.) -/
def matchLiveLine (line : List Char) : Option (List Char) :=
  match line with
  | c₁ :: c₂ :: rest =>
      if isPySpace c₁ && isPySpace c₂ then
        let tok := rest.takeWhile isCmdChar
        if tok.isEmpty then none
        else
          match rest.dropWhile isCmdChar with
          | ':' :: c₃ :: _ => if isPySpace c₃ then some tok else none
          | _ => none
      else none
  | _ => none

/-- `parse_live_commands(help_text)`: the set of tokens matched on each line of
the help text. -/
def parse_live_commands (help_text : List Char) : Finset (List Char) :=
  (pySplitlines help_text).foldl
    (fun cmds line =>
      match matchLiveLine line with
      | some tok => insert tok cmds
      | none => cmds) ∅

/-- Claim-side matcher following C1's words literally: exactly two leading SPACE
characters, the token, a colon and a SPACE character. -/
def claimLiveToken (line : List Char) : Option (List Char) :=
  match line with
  | ' ' :: ' ' :: rest =>
      let tok := rest.takeWhile isCmdChar
      if tok.isEmpty then none
      else
        match rest.dropWhile isCmdChar with
        | ':' :: ' ' :: _ => some tok
        | _ => none
  | _ => none

/-- Claim-side token set for C1 (exact two-space shape). -/
def claimLiveTokens (help_text : List Char) : Finset (List Char) :=
  (pySplitlines help_text).foldl
    (fun cmds line =>
      match claimLiveToken line with
      | some tok => insert tok cmds
      | none => cmds) ∅

/-- The shape a line must have for its token to be collected by
`parse_live_commands` (amended claim C1): two leading whitespace characters, a
non-empty `[a-z0-9-]` token, a colon, and a whitespace character. -/
def LiveLineWs (line tok : List Char) : Prop :=
  tok ≠ [] ∧ (∀ c ∈ tok, isCmdChar c = true) ∧
    ∃ c₁ c₂ c₃ rest, isPySpace c₁ = true ∧ isPySpace c₂ = true ∧
      isPySpace c₃ = true ∧ line = c₁ :: c₂ :: (tok ++ ':' :: c₃ :: rest)

/-- The backtick character (code point 96). -/
def backtickChar : Char := Char.ofNat 96

/-- `"--"` prefix test (`token.startswith("--")`). -/
def isDashDash (s : List Char) : Bool :=
  match s with
  | '-' :: '-' :: _ => true
  | _ => false

/-- Per-line matcher for `re.findall(r"^- \x60([a-z0-9-]+)\x60", text, re.MULTILINE)`:
with `re.MULTILINE`, `^` anchors at the string start and after each `\n`, so the
findall is equivalent to matching each `\n`-separated segment at its start. -/
def matchDocLine (line : List Char) : Option (List Char) :=
  match line with
  | '-' :: ' ' :: c :: rest =>
      if c = backtickChar then
        let tok := rest.takeWhile isCmdChar
        if tok.isEmpty then none
        else
          match rest.dropWhile isCmdChar with
          | c' :: _ => if c' = backtickChar then some tok else none
          | [] => none
      else none
  | _ => none

/-- Split on `'\n'` only (the segment boundaries `re.MULTILINE` `^` anchors at),
keeping empty segments. -/
def splitNlAux : List Char → List Char → List (List Char)
  | [], acc => [acc.reverse]
  | '\n' :: rest, acc => acc.reverse :: splitNlAux rest []
  | c :: rest, acc => splitNlAux rest (c :: acc)

/-- All `\n`-separated segments of a text. -/
def splitNl (l : List Char) : List (List Char) := splitNlAux l []

/-- `parse_documented_commands(path)` after the file read: collect the markdown
list-item tokens and drop any beginning with `--`. -/
def parse_documented_commands (text : List Char) : Finset (List Char) :=
  let entries : Finset (List Char) :=
    (splitNl text).foldl
      (fun s line =>
        match matchDocLine line with
        | some tok => insert tok s
        | none => s) ∅
  entries.filter (fun s => isDashDash s = false)

/-- `ROOT_FLAGS_WITH_VALUE`. -/
def ROOT_FLAGS_WITH_VALUE : List (List Char) :=
  [tl "--profile", tl "--report", tl "--report-file"]

/-- The `while` loop of `extract_top_level_command`: skip leading `--` tokens
(`=`-carrying flags consume nothing extra, value-taking root flags consume the
following token when one exists), returning the suffix of the token list that
starts at the first non-flag token (empty when the tokens are exhausted; a
value-taking flag in final position advances the index past the end, so the
loop exits with an empty suffix). -/
def skipFlags : List (List Char) → List (List Char)
  | [] => []
  | t :: rest =>
      if isDashDash t then
        if '=' ∈ t then skipFlags rest
        else if t ∈ ROOT_FLAGS_WITH_VALUE then
          match rest with
          | [] => []
          | _ :: rest' => skipFlags rest'
        else skipFlags rest
      else t :: rest

/-- Claim-side skipping rule of C3, phrased as "return the first non-flag token":
a flag with `=` consumes no operand, a value-taking root flag consumes the next
token as its value, any other flag consumes nothing extra. -/
def skipFlagsSpec : List (List Char) → Option (List Char)
  | [] => none
  | t :: rest =>
      if isDashDash t then
        if '=' ∈ t then skipFlagsSpec rest
        else if t ∈ ROOT_FLAGS_WITH_VALUE then
          match rest with
          | [] => none
          | _ :: rest' => skipFlagsSpec rest'
        else skipFlagsSpec rest
      else some t

/-- `extract_top_level_command(line)`. -/
def extract_top_level_command (line : List Char) : Option (List Char) :=
  let tokens := pySplitWs (pyStrip line)
  match tokens with
  | t₀ :: t₁ :: ts =>
      if t₀ = tl "asc" then
        match skipFlags (t₁ :: ts) with
        | [] => none
        | command :: _ =>
            match command with
            | '<' :: _ => none
            | _ => some command
      else none
  | _ => none

/-- The order Python `sorted` uses on `str`: code-point lexicographic order,
which is exactly Lean's `String` order. -/
def strLe (a b : String) : Prop := a ≤ b

instance : DecidableRel strLe := fun a b => inferInstanceAs (Decidable (a ≤ b))

instance : IsTrans String strLe := inferInstanceAs (IsTrans String (· ≤ ·))

instance : IsAntisymm String strLe := inferInstanceAs (IsAntisymm String (· ≤ ·))

instance : IsTotal String strLe := inferInstanceAs (IsTotal String (· ≤ ·))

/-- `main()` of `check-commands-docs.py`, parameterised by the live command set,
the documented command set and the README example errors (the three inputs the
comparison consumes); returns the printed lines and the exit status.  Plain
Lean `String` is used here because the claim quantifies over abstract sets and
`String` carries the code-point order Python `sorted` uses. -/
def checker_main (live doc : Finset String) (readme_errors : List String) :
    List String × Nat :=
  let missing := (live \ doc).sort strLe
  let extra := (doc \ live).sort strLe
  let problems :=
    (if missing.isEmpty then [] else
      ["Missing in docs/COMMANDS.md: " ++ String.intercalate ", " missing]) ++
    (if extra.isEmpty then [] else
      ["Extra in docs/COMMANDS.md: " ++ String.intercalate ", " extra]) ++
    readme_errors
  if problems.isEmpty = false then
    (["Command docs are out of sync with live CLI help:"] ++
       problems.map (fun p => "- " ++ p) ++
       ["Run \x27go run . --help\x27 and update docs/COMMANDS.md and README.md examples."],
     1)
  else
    (["Command docs are up to date (" ++ toString live.card ++
        " commands, README examples validated)."], 0)

/-! ## `scripts/generate-command-docs.py` -/

/-- Characters of the class (uppercase letters, digits, space, ampersand, slash, hyphen) in the group-header regex. -/
def isGroupChar (c : Char) : Bool :=
  ('A' ≤ c && c ≤ 'Z') || ('0' ≤ c && c ≤ '9') || c ∈ [' ', '&', '/', '-']

/-- The matcher compiled from the group-header regex (one-or-more class characters, then `" COMMANDS"`, anchored at both ends) applied to the stripped line:
since every character of `" COMMANDS"` is itself in the class, the regex matches
exactly when the whole stripped line lies in the class and ends in `" COMMANDS"`
with a non-empty part before it.  The stored title is `group(0)`, the entire
stripped line. -/
def isGroupHeader (s : List Char) : Bool :=
  let n := s.length
  decide (9 < n) && s.drop (n - 9) = tl " COMMANDS" && (s.take (n - 9)).all isGroupChar

/-- The matcher compiled from `re.match(r"^\s{2}([a-z0-9-]+):\s+(.*\S)\s*$", line)`:
two whitespace characters, a maximal non-empty `[a-z0-9-]` run, a colon, at least
one whitespace character, and a description running from the first non-whitespace
character after the colon to the last non-whitespace character of the line. -/
def matchCommandLine (line : List Char) : Option (List Char × List Char) :=
  match line with
  | c₁ :: c₂ :: rest =>
      if isPySpace c₁ && isPySpace c₂ then
        let tok := rest.takeWhile isCmdChar
        if tok.isEmpty then none
        else
          match rest.dropWhile isCmdChar with
          | ':' :: c₃ :: tail =>
              if isPySpace c₃ && (pyStrip (c₃ :: tail)).isEmpty = false then
                some (tok, pyStrip (c₃ :: tail))
              else none
          | _ => none
      else none
  | _ => none

/-- The matcher compiled from `re.match(r"^\s{2}(--[a-z0-9-]+)\s+(.*\S)\s*$", line)`. -/
def matchFlagLine (line : List Char) : Option (List Char × List Char) :=
  match line with
  | c₁ :: c₂ :: '-' :: '-' :: rest =>
      if isPySpace c₁ && isPySpace c₂ then
        let tok := rest.takeWhile isCmdChar
        if tok.isEmpty then none
        else
          match rest.dropWhile isCmdChar with
          | c₃ :: tail =>
              if isPySpace c₃ && (pyStrip (c₃ :: tail)).isEmpty = false then
                some ('-' :: '-' :: tok, pyStrip (c₃ :: tail))
              else none
          | [] => none
      else none
  | _ => none

/-- Parser state of `parse_help`. -/
structure ParseState where
  usage : List Char
  flags : List (List Char × List Char)
  groups : List (List Char × List (List Char × List Char))
  inFlags : Bool
  currentGroup : Option Nat
deriving DecidableEq

/-- Append a command entry to the `i`-th group (`groups[current_group_index][1].append`). -/
def appendToGroup :
    List (List Char × List (List Char × List Char)) → Nat → List Char × List Char →
      List (List Char × List (List Char × List Char))
  | [], _, _ => []
  | g :: gs, 0, c => (g.1, g.2 ++ [c]) :: gs
  | g :: gs, n + 1, c => g :: appendToGroup gs n c

/-- One iteration of the `for line in help_text.splitlines()` loop of `parse_help`. -/
def parseHelpLine (st : ParseState) (line : List Char) : ParseState :=
  let st := if (tl "  asc ").isPrefixOf line then { st with usage := pyStrip line } else st
  let stripped := pyStrip line
  if stripped = tl "FLAGS" then
    { st with inFlags := true, currentGroup := none }
  else if isGroupHeader stripped then
    { st with inFlags := false,
              groups := st.groups ++ [(stripped, [])],
              currentGroup := some st.groups.length }
  else
    match matchCommandLine line, st.currentGroup with
    | some cd, some gi => { st with groups := appendToGroup st.groups gi cd }
    | _, _ =>
        match matchFlagLine line, st.inFlags with
        | some fd, true => { st with flags := st.flags ++ [fd] }
        | _, _ => st

/-- `parse_help(help_text)`: returns `(usage, flags, groups)`. -/
def parse_help (help_text : List Char) :
    List Char × List (List Char × List Char) ×
      List (List Char × List (List Char × List Char)) :=
  let st := (pySplitlines help_text).foldl parseHelpLine
    { usage := tl "asc <subcommand> [flags]", flags := [], groups := [],
      inFlags := false, currentGroup := none }
  (st.usage, st.flags, st.groups)

/-- `GROUP_TITLE_MAP`. -/
def GROUP_TITLE_MAP : List (List Char × List Char) :=
  [(tl "GETTING STARTED COMMANDS", tl "Getting Started"),
   (tl "ANALYTICS & FINANCE COMMANDS", tl "Analytics and Finance"),
   (tl "APP MANAGEMENT COMMANDS", tl "App Management"),
   (tl "TESTFLIGHT & BUILD COMMANDS", tl "TestFlight and Builds"),
   (tl "REVIEW & RELEASE COMMANDS", tl "Review and Release"),
   (tl "MONETIZATION COMMANDS", tl "Monetization"),
   (tl "SIGNING COMMANDS", tl "Signing"),
   (tl "TEAM & ACCESS COMMANDS", tl "Team and Access"),
   (tl "AUTOMATION COMMANDS", tl "Automation"),
   (tl "UTILITY COMMANDS", tl "Utility"),
   (tl "ADDITIONAL COMMANDS", tl "Additional")]

/-- First-match association lookup (Python `dict.get` on a literal dict with
distinct keys). -/
def assocLookup (fields : List (List Char × List Char)) (key : List Char) :
    Option (List Char) :=
  (fields.find? (fun kv => kv.1 = key)).map (fun kv => kv.2)

/-- Worker for `pyTitle`; the flag records whether the previous character was
alphabetic (cased). -/
def pyTitleAux : Bool → List Char → List Char
  | _, [] => []
  | prevAlpha, c :: rest =>
      (if c.isAlpha then (if prevAlpha then c.toLower else c.toUpper) else c) ::
        pyTitleAux c.isAlpha rest

/-- Python `str.title` restricted to ASCII letters: a letter is uppercased when
the preceding character is not a letter and lowercased otherwise. -/
def pyTitle (s : List Char) : List Char := pyTitleAux false s

/-- `normalize_group_title(raw_title)`. -/
def normalize_group_title (raw_title : List Char) : List Char :=
  (assocLookup GROUP_TITLE_MAP raw_title).getD (pyTitle raw_title)

/-- `render(usage, flags, groups)`: the full markdown document, joined with
newlines exactly as `"\n".join(lines)`. -/
def render (usage : List Char) (flags : List (List Char × List Char))
    (groups : List (List Char × List (List Char × List Char))) : List Char :=
  let lines : List (List Char) :=
    [tl "# Command Reference Guide",
     tl "",
     tl "This file is generated from live CLI help output.",
     tl "For authoritative command behavior, also use:",
     tl "",
     tl "```bash",
     tl "asc --help",
     tl "asc <command> --help",
     tl "asc <command> <subcommand> --help",
     tl "```",
     tl "",
     tl "To regenerate:",
     tl "",
     tl "```bash",
     tl "make generate-command-docs",
     tl "```",
     tl "",
     tl "## Usage Pattern",
     tl "",
     tl "```bash",
     usage,
     tl "```",
     tl "",
     tl "## Global Flags",
     tl ""] ++
    flags.map (fun fd => tl "- `" ++ fd.1 ++ tl "` - " ++ fd.2) ++
    [tl "", tl "## Command Families", tl ""] ++
    (groups.map (fun g =>
      [tl "### " ++ normalize_group_title g.1, tl ""] ++
      g.2.map (fun cd => tl "- `" ++ cd.1 ++ tl "` - " ++ cd.2) ++
      [tl ""])).flatten ++
    [tl "## Scripting Tips",
     tl "",
     tl "- JSON output is minified by default and optimized for machine parsing.",
     tl "- Use `--output table` or `--output markdown` for human-readable output.",
     tl "- Use `--paginate` on list commands to fetch all pages automatically.",
     tl "- Use `--limit` and `--next` for manual pagination control.",
     tl "- Prefer explicit flags and deterministic outputs in CI scripts.",
     tl "",
     tl "## High-Signal Examples",
     tl "",
     tl "```bash",
     tl "# List apps",
     tl "asc apps list --output table",
     tl "",
     tl "# Upload a build",
     tl "asc builds upload --app \"123456789\" --file \"/path/to/MyApp.ipa\"",
     tl "",
     tl "# Validate and submit an App Store version",
     tl "asc validate --app \"123456789\" --version \"1.2.3\"",
     tl "asc submit --app \"123456789\" --version \"1.2.3\"",
     tl "",
     tl "# Run a local automation workflow",
     tl "asc workflow run --file .asc/workflow.json --workflow release",
     tl "```",
     tl "",
     tl "## Related Documentation",
     tl "",
     tl "- [../README.md](../README.md) - onboarding and common workflows",
     tl "- [API_NOTES.md](API_NOTES.md) - API-specific behavior and caveats",
     tl "- [TESTING.md](TESTING.md) - test strategy and patterns",
     tl "- [CONTRIBUTING.md](CONTRIBUTING.md) - contribution and dev workflow",
     tl ""]
  joinWith (tl "\n") lines

/-- The document generated from a given help text:
`render(*parse_help(help_text))`. -/
def generatedDoc (help_text : List Char) : List Char :=
  let p := parse_help help_text
  render p.1 p.2.1 p.2.2

/-- Outcome of `main()` of `generate-command-docs.py`: whether the output file
was written, and the exit status. -/
inductive GenOutcome
  | wrote (content : List Char) (exit : Nat)
  | noWrite (exit : Nat)
deriving DecidableEq

/-- `main()` of `generate-command-docs.py`, parameterised by the `--check` flag,
the captured help text and the current content of `docs/COMMANDS.md` (`none`
when the file does not exist; the source then uses `""`). -/
def generate_main (check : Bool) (help_text : List Char)
    (currentFile : Option (List Char)) : GenOutcome :=
  let generated := generatedDoc help_text
  if check then
    let current := currentFile.getD []
    if current ≠ generated then .noWrite 1 else .noWrite 0
  else .wrote generated 0

/-! ## `scripts/update-wall-of-apps.py` -/

/-- `START_MARKER`. -/
def startMarker : List Char := tl "<!-- WALL-OF-APPS:START -->"

/-- `END_MARKER`. -/
def endMarker : List Char := tl "<!-- WALL-OF-APPS:END -->"

/-- JSON values as produced by `json.loads`.  Numbers are modelled as integers
(no claim involves a fractional literal). -/
inductive JValue
  | jstr (s : List Char)
  | jnum (n : Int)
  | jbool (b : Bool)
  | jnull
  | jarr (xs : List JValue)
  | jobj (fields : List (List Char × JValue))

mutual

/-- Python `repr` of a JSON-decoded value (used by `str` on containers).  String
escaping inside `repr` is elided: the quotes are always `\x27` and the inner
text is kept verbatim, which agrees with CPython for strings free of quotes and
escapes (no claim evaluates `repr` on any other string). -/
def pyRepr : JValue → List Char
  | .jstr s => '\x27' :: (s ++ ['\x27'])
  | .jnum n => tl (toString n)
  | .jbool true => tl "True"
  | .jbool false => tl "False"
  | .jnull => tl "None"
  | .jarr xs => '[' :: (joinWith (tl ", ") (pyReprList xs) ++ [']'])
  | .jobj fields => '\x7b' :: (joinWith (tl ", ") (pyReprFields fields) ++ ['\x7d'])

/-- `repr` of each element of a list. -/
def pyReprList : List JValue → List (List Char)
  | [] => []
  | v :: vs => pyRepr v :: pyReprList vs

/-- `repr` of each `key: value` pair of a dict. -/
def pyReprFields : List (List Char × JValue) → List (List Char)
  | [] => []
  | kv :: kvs => ('\x27' :: (kv.1 ++ tl "\x27: " ++ pyRepr kv.2)) :: pyReprFields kvs

end

/-- Python `str` of a JSON-decoded value: the string itself for `str` values,
`repr`-style text otherwise (`str(True) = "True"`, `str(123) = "123"`, ...). -/
def pyStr : JValue → List Char
  | .jstr s => s
  | v => pyRepr v

/-- `dict.get(key)` on a decoded JSON object (keys are unique after decoding). -/
def jget (fields : List (List Char × JValue)) (key : List Char) : Option JValue :=
  (fields.find? (fun kv => kv.1 = key)).map (fun kv => kv.2)

/-- ASCII letter test (first character of a URL scheme). -/
def isAsciiAlpha (c : Char) : Bool :=
  ('a' ≤ c && c ≤ 'z') || ('A' ≤ c && c ≤ 'Z')

/-- Characters allowed in a URL scheme by `urllib.parse`. -/
def isSchemeChar (c : Char) : Bool :=
  isAsciiAlpha c || ('0' ≤ c && c ≤ '9') || c ∈ ['+', '-', '.']

/-- The `(scheme, netloc)` fields of `urllib.parse.urlparse(url)` (the only two
fields the script reads): a scheme is recognised when a colon occurs, the part
before it is non-empty, starts with an ASCII letter and consists of scheme
characters, and is then lowercased; a netloc is parsed only when the remaining
text starts with `"//"` and extends to the next `/`, `?` or `#`. -/
def urlparse_scheme_netloc (url : List Char) : List Char × List Char :=
  let pre := url.takeWhile (fun c => c ≠ ':')
  let (scheme, rest) :=
    if pre.length < url.length && pre.isEmpty = false &&
        isAsciiAlpha (pre.headD ' ') && pre.all isSchemeChar then
      (pyLower pre, url.drop (pre.length + 1))
    else ([], url)
  match rest with
  | '/' :: '/' :: rest' =>
      (scheme, rest'.takeWhile (fun c => c ∉ ['/', '?', '#']))
  | _ => (scheme, [])

/-- `PLATFORM_DISPLAY_NAMES`. -/
def PLATFORM_DISPLAY_NAMES : List (List Char × List Char) :=
  [(tl "IOS", tl "iOS"), (tl "MAC_OS", tl "macOS"),
   (tl "TV_OS", tl "tvOS"), (tl "VISION_OS", tl "visionOS")]

/-- `PLATFORM_ALIASES`. -/
def PLATFORM_ALIASES : List (List Char × List Char) :=
  [(tl "ios", tl "IOS"), (tl "macos", tl "MAC_OS"), (tl "mac_os", tl "MAC_OS"),
   (tl "tvos", tl "TV_OS"), (tl "tv_os", tl "TV_OS"),
   (tl "visionos", tl "VISION_OS"), (tl "vision_os", tl "VISION_OS")]

/-- `normalize_platform(value)`: strip the `str` form, reject the empty token,
lowercase, replace `-` by `_`, delete spaces, and look the key up in the alias
table. -/
def normalize_platform (value : JValue) : Option (List Char) :=
  let token := pyStrip (pyStr value)
  if token.isEmpty then none
  else
    let key := ((pyLower token).map (fun c => if c = '-' then '_' else c)).filter
      (fun c => c ≠ ' ')
    assocLookup PLATFORM_ALIASES key

/-- A normalized wall-of-apps entry. -/
structure AppEntry where
  app : List Char
  link : List Char
  creator : List Char
  platform : List (List Char)
deriving DecidableEq

/-- The failure modes of `update-wall-of-apps.py`.  Every constructor except
`valueError` corresponds to `raise SystemExit(message)` with the descriptive
message noted; `valueError` is the uncaught `ValueError` raised by the tuple
unpacking `_, after = remainder.split(END_MARKER, 1)` when the split yields a
single element (non-zero exit via traceback, no descriptive message). -/
inductive WallError
  | missingSource        -- "Missing source file: {path}"
  | emptySource          -- "Source file is empty: {path}"
  | invalidJson          -- "Invalid JSON in {path}: {exc}"
  | notArray             -- "Expected a JSON array in {path}"
  | entryNotObject (index : Nat)     -- "Entry #{index}: expected object"
  | appRequired (index : Nat)        -- "Entry #{index}: 'app' is required"
  | linkRequired (index : Nat)       -- "Entry #{index}: 'link' is required"
  | creatorRequired (index : Nat)    -- "Entry #{index}: 'creator' is required"
  | linkNotUrl (index : Nat)         -- "Entry #{index}: 'link' must be a valid http/https URL"
  | platformNotArray (index : Nat)   -- "Entry #{index}: 'platform' must be a non-empty array"
  | invalidPlatform (index : Nat) (token : List Char)
      -- "Entry #{index}: invalid platform {token!r} (allowed: ...)"
  | missingReadme        -- "Missing README file: {path}"
  | markersNotFound      -- "README markers not found. Expected WALL-OF-APPS markers in README.md."
  | valueError
deriving DecidableEq

/-- Whether a failure aborts through `raise SystemExit` with its descriptive
message (every failure mode except the bare unpacking `ValueError`). -/
def raisesDescriptiveExit : WallError → Bool
  | .valueError => false
  | _ => true

/-- The `for value in platforms_raw` loop of `normalize_entry`: normalize each
token, fail on the first invalid one quoting the stripped token, and append
unseen canonical codes in order. -/
def platformFold (index : Nat) : List JValue → List (List Char) →
    Except WallError (List (List Char))
  | [], acc => .ok acc
  | v :: rest, acc =>
      match normalize_platform v with
      | none => .error (.invalidPlatform index (pyStrip (pyStr v)))
      | some p => platformFold index rest (if p ∈ acc then acc else acc ++ [p])

/-- `normalize_entry(entry, index)`. -/
def normalize_entry (entry : JValue) (index : Nat) : Except WallError AppEntry :=
  match entry with
  | .jobj fields =>
      let app := pyStrip (pyStr ((jget fields (tl "app")).getD (.jstr [])))
      let link := pyStrip (pyStr ((jget fields (tl "link")).getD (.jstr [])))
      let creator := pyStrip (pyStr ((jget fields (tl "creator")).getD (.jstr [])))
      let platforms_raw := jget fields (tl "platform")
      if app.isEmpty then .error (.appRequired index)
      else if link.isEmpty then .error (.linkRequired index)
      else if creator.isEmpty then .error (.creatorRequired index)
      else
        let sn := urlparse_scheme_netloc link
        if (sn.1 ≠ tl "http" ∧ sn.1 ≠ tl "https") ∨ sn.2 = [] then
          .error (.linkNotUrl index)
        else
          match platforms_raw with
          | some (.jarr vs) =>
              if vs.isEmpty then .error (.platformNotArray index)
              else (platformFold index vs []).map
                (fun ps => { app := app, link := link, creator := creator,
                             platform := ps })
          | _ => .error (.platformNotArray index)
  | _ => .error (.entryNotObject index)

/-- Sort key comparison: Python tuple `<` on
`(entry["app"].lower(), entry["link"].lower())`. -/
def entryKeyLt (a b : AppEntry) : Bool :=
  strLt (pyLower a.app) (pyLower b.app) ||
    (pyLower a.app = pyLower b.app && strLt (pyLower a.link) (pyLower b.link))

/-- Stable insertion of a later element: it goes after every already-placed
element whose key is not strictly greater (Python `list.sort` is stable). -/
def insEntry (e : AppEntry) : List AppEntry → List AppEntry
  | [] => [e]
  | x :: xs => if entryKeyLt e x then e :: x :: xs else x :: insEntry e xs

/-- Stable sort by `(app.lower(), link.lower())` (`entries.sort(key=...)`). -/
def pySortEntries (l : List AppEntry) : List AppEntry :=
  l.foldl (fun acc e => insEntry e acc) []

/-- `[normalize_entry(item, idx + 1) for idx, item in enumerate(parsed)]`,
failing on the first invalid entry (the list comprehension evaluates entries in
order and the first `SystemExit` aborts). -/
def normalize_all : List JValue → Nat → Except WallError (List AppEntry)
  | [], _ => .ok []
  | v :: rest, index =>
      match normalize_entry v index with
      | .error e => .error e
      | .ok entry =>
          match normalize_all rest (index + 1) with
          | .error e => .error e
          | .ok entries => .ok (entry :: entries)

/-- The part of `read_entries` that runs after `json.loads`: require a top-level
array, normalize every element, and sort. -/
def entries_of_json : JValue → Except WallError (List AppEntry)
  | .jarr items =>
      match normalize_all items 1 with
      | .error e => .error e
      | .ok entries => .ok (pySortEntries entries)
  | _ => .error .notArray

/-- The source file as `read_entries` sees it: missing, or present with raw text
and the result of `json.loads` on the stripped text (`none` models a
`JSONDecodeError`; the JSON grammar itself is not re-verified here). -/
inductive SourceFile
  | missing
  | present (raw : List Char) (parsed : Option JValue)

/-- `read_entries(source_path)`. -/
def read_entries : SourceFile → Except WallError (List AppEntry)
  | .missing => .error .missingSource
  | .present raw parsed =>
      if (pyStrip raw).isEmpty then .error .emptySource
      else
        match parsed with
        | none => .error .invalidJson
        | some v => entries_of_json v

/-- `escape_cell(value)`: the two sequential `replace` calls fused into one pass
(the output of the `|` replacement contains no newline, so the passes do not
interact), followed by `strip`. -/
def escReplace : List Char → List Char
  | [] => []
  | '|' :: r => '\\' :: '|' :: escReplace r
  | '\n' :: r => ' ' :: escReplace r
  | c :: r => c :: escReplace r

/-- `escape_cell`. -/
def escape_cell (value : List Char) : List Char := pyStrip (escReplace value)

/-- `display_platform(value)`. -/
def display_platform (value : List Char) : List Char :=
  (assocLookup PLATFORM_DISPLAY_NAMES value).getD value

/-- `build_snippet(entries)`. -/
def build_snippet (entries : List AppEntry) : List Char :=
  let header : List (List Char) :=
    [tl "## Wall of Apps",
     tl "",
     tl "Apps shipping with asc-cli. [Add yours via PR](https://github.com/rudrankriyam/App-Store-Connect-CLI/pulls)!",
     tl "",
     tl "| App | Link | Creator | Platform |",
     tl "|:----|:-----|:--------|:---------|"]
  let rows := entries.map (fun e =>
    let app := escape_cell e.app
    let creator := escape_cell e.creator
    let platforms := joinWith (tl ", ") (e.platform.map display_platform)
    tl "| " ++ app ++ tl " | [Open](" ++ e.link ++ tl ") | " ++ creator ++
      tl " | " ++ escape_cell platforms ++ tl " |")
  joinWith (tl "\n") (header ++ rows) ++ tl "\n"

/-- Header comment written at the top of the generated fragment file. -/
def generatedHeader : List Char :=
  tl "<!-- Generated from docs/wall-of-apps.json by scripts/update-wall-of-apps.py. -->\n\n"

/-- `sync_readme(snippet, readme_path)` as a content transformer; the input is
`none` when the README file does not exist. -/
def sync_readme (snippet : List Char) (readme : Option (List Char)) :
    Except WallError (List Char) :=
  match readme with
  | none => .error .missingReadme
  | some content =>
      if containsSub startMarker content = false ||
          containsSub endMarker content = false then
        .error .markersNotFound
      else
        match pySplitOnce startMarker content with
        | none => .error .markersNotFound  -- unreachable: the guard ensures an occurrence
        | some (before, remainder) =>
            match pySplitOnce endMarker remainder with
            | none => .error .valueError
            | some (_, after) =>
                .ok (before ++ startMarker ++ '\n' ::
                      (snippet ++ endMarker ++ after))

/-- Observable outcome of `main()` of `update-wall-of-apps.py`: which files were
written before the process stopped.  `read_entries` runs first; on success the
generated fragment is written, then the README is spliced. -/
inductive WallResult
  | fatalBeforeWrite (e : WallError)
  | fatalAfterDocWrite (doc : List Char) (e : WallError)
  | success (doc newReadme : List Char)
deriving DecidableEq

/-- `main()` of `update-wall-of-apps.py`, parameterised by the source file and
the README content. -/
def wallMain (src : SourceFile) (readme : Option (List Char)) : WallResult :=
  match read_entries src with
  | .error e => .fatalBeforeWrite e
  | .ok entries =>
      let snippet := build_snippet entries
      let doc := generatedHeader ++ snippet
      match sync_readme snippet readme with
      | .error e => .fatalAfterDocWrite doc e
      | .ok newReadme => .success doc newReadme

/-- Decidable equality for `Except` (not provided by the core library). -/
instance exceptDecidableEq {ε α : Type} [DecidableEq ε] [DecidableEq α] :
    DecidableEq (Except ε α) := fun x y =>
  match x, y with
  | .error a, .error b =>
      if h : a = b then .isTrue (by rw [h])
      else .isFalse (fun he => h (by injection he))
  | .ok a, .ok b =>
      if h : a = b then .isTrue (by rw [h])
      else .isFalse (fun he => h (by injection he))
  | .error _, .ok _ => .isFalse (fun he => Except.noConfusion he)
  | .ok _, .error _ => .isFalse (fun he => Except.noConfusion he)

/-! ## Helper lemmas -/

theorem isPrefixOf_append_self : ∀ (l t : List Char), l.isPrefixOf (l ++ t) = true
  | [], t => by simp [List.isPrefixOf]
  | a :: l, t => by
      simp only [List.cons_append, List.isPrefixOf, beq_self_eq_true, Bool.true_and]
      exact isPrefixOf_append_self l t

theorem isPrefixOf_append_extend :
    ∀ (s x y : List Char), s.isPrefixOf x = true → s.isPrefixOf (x ++ y) = true
  | [], _, _, _ => by simp [List.isPrefixOf]
  | a :: s, [], _, h => by simp [List.isPrefixOf] at h
  | a :: s, b :: x, y, h => by
      simp only [List.isPrefixOf, Bool.and_eq_true] at h
      simp only [List.cons_append, List.isPrefixOf, Bool.and_eq_true]
      exact ⟨h.1, isPrefixOf_append_extend s x y h.2⟩

theorem isPrefixOf_left_of_le :
    ∀ (s B X : List Char), s.isPrefixOf (B ++ X) = true → s.length ≤ B.length →
      s.isPrefixOf B = true
  | [], _, _, _, _ => by simp [List.isPrefixOf]
  | a :: s, [], _, _, hlen => by simp at hlen
  | a :: s, b :: B, X, h, hlen => by
      simp only [List.cons_append, List.isPrefixOf, Bool.and_eq_true] at h
      simp only [List.isPrefixOf, Bool.and_eq_true]
      exact ⟨h.1, isPrefixOf_left_of_le s B X h.2 (Nat.le_of_succ_le_succ (by simpa using hlen))⟩

theorem isPrefixOf_drop_of_ge :
    ∀ (B s X : List Char), s.isPrefixOf (B ++ X) = true → B.length ≤ s.length →
      (s.drop B.length).isPrefixOf X = true
  | [], s, X, h, _ => h
  | b :: B, [], X, _, hlen => by simp at hlen
  | b :: B, a :: s, X, h, hlen => by
      simp only [List.cons_append, List.isPrefixOf, Bool.and_eq_true] at h
      simpa using isPrefixOf_drop_of_ge B s X h.2 (Nat.le_of_succ_le_succ (by simpa using hlen))

theorem eq_append_drop_of_isPrefixOf :
    ∀ (s l : List Char), s.isPrefixOf l = true → l = s ++ l.drop s.length
  | [], l, _ => rfl
  | a :: s, [], h => by simp [List.isPrefixOf] at h
  | a :: s, b :: l, h => by
      simp only [List.isPrefixOf, Bool.and_eq_true, beq_iff_eq] at h
      simp only [List.cons_append, List.length_cons, List.drop_succ_cons, List.cons.injEq]
      exact ⟨h.1.symm, eq_append_drop_of_isPrefixOf s l h.2⟩

theorem pySplitOnce_eq_append :
    ∀ (sep l a b : List Char), pySplitOnce sep l = some (a, b) → l = a ++ sep ++ b := by
  intro sep l
  induction l with
  | nil =>
      intro a b h
      unfold pySplitOnce at h
      split at h
      · rename_i hpre
        cases sep with
        | nil => simp at h; simp [h.1, h.2]
        | cons c s => simp [List.isPrefixOf] at hpre
      · exact absurd h (by simp)
  | cons c rest ih =>
      intro a b h
      unfold pySplitOnce at h
      split at h
      · rename_i hpre
        simp only [Option.some.injEq, Prod.mk.injEq] at h
        rw [← h.1, ← h.2]
        simpa using eq_append_drop_of_isPrefixOf sep (c :: rest) hpre
      · rename_i hpre
        cases hrec : pySplitOnce sep rest with
        | none => rw [hrec] at h; exact absurd h (by simp)
        | some ab =>
            obtain ⟨a', b'⟩ := ab
            rw [hrec] at h
            simp only [Option.some.injEq, Prod.mk.injEq] at h
            rw [← h.1, ← h.2]
            simpa using ih a' b' hrec

theorem containsSub_cons (sep : List Char) (c : Char) (l : List Char) :
    containsSub sep (c :: l) = (sep.isPrefixOf (c :: l) || containsSub sep l) := by
  unfold containsSub
  cases hp : sep.isPrefixOf (c :: l) with
  | true => simp [pySplitOnce, hp]
  | false =>
      cases hrec : pySplitOnce sep l with
      | none => simp [pySplitOnce, hp, hrec]
      | some ab => cases ab; simp [pySplitOnce, hp, hrec]

theorem containsSub_of_isPrefixOf {sep l : List Char} (h : sep.isPrefixOf l = true) :
    containsSub sep l = true := by
  cases l with
  | nil =>
      cases sep with
      | nil => rfl
      | cons c s => simp [List.isPrefixOf] at h
  | cons c rest => rw [containsSub_cons, h, Bool.true_or]

theorem pySplitOnce_left_not_contains :
    ∀ (sep l a b : List Char), sep ≠ [] → pySplitOnce sep l = some (a, b) →
      containsSub sep a = false := by
  intro sep l
  induction l with
  | nil =>
      intro a b hne h
      unfold pySplitOnce at h
      split at h
      · rename_i hpre
        cases sep with
        | nil => exact absurd rfl hne
        | cons c s => simp [List.isPrefixOf] at hpre
      · exact absurd h (by simp)
  | cons c rest ih =>
      intro a b hne h
      unfold pySplitOnce at h
      split at h
      · simp only [Option.some.injEq, Prod.mk.injEq] at h
        rw [← h.1]
        unfold containsSub pySplitOnce
        cases sep with
        | nil => exact absurd rfl hne
        | cons c' s => simp [List.isPrefixOf]
      · rename_i hpre
        cases hrec : pySplitOnce sep rest with
        | none => rw [hrec] at h; exact absurd h (by simp)
        | some ab =>
            obtain ⟨a', b'⟩ := ab
            rw [hrec] at h
            simp only [Option.some.injEq, Prod.mk.injEq] at h
            rw [← h.1]
            rw [containsSub_cons]
            have ha' := ih a' b' hne hrec
            have hnp : sep.isPrefixOf (c :: a') = false := by
              cases hq : sep.isPrefixOf (c :: a') with
              | false => rfl
              | true =>
                  exfalso
                  have hrest := pySplitOnce_eq_append sep rest a' b' hrec
                  have hext : sep.isPrefixOf ((c :: a') ++ (sep ++ b')) = true :=
                    isPrefixOf_append_extend sep (c :: a') (sep ++ b') hq
                  rw [show (c :: a') ++ (sep ++ b') = c :: (a' ++ sep ++ b') by simp] at hext
                  rw [← hrest] at hext
                  rw [hext] at hpre
                  exact hpre rfl
            rw [hnp, ha']
            rfl

theorem pySplitOnce_append :
    ∀ (sep B T : List Char), sep ≠ [] → borderFree sep = true →
      containsSub sep B = false → pySplitOnce sep (B ++ sep ++ T) = some (B, T) := by
  intro sep B
  induction B with
  | nil =>
      intro T hne _ _
      show pySplitOnce sep ([] ++ sep ++ T) = some ([], T)
      rw [show ([] ++ sep ++ T : List Char) = sep ++ T by simp]
      cases hsep : sep with
      | nil => exact absurd hsep hne
      | cons s₀ s' =>
          have hpre : (s₀ :: s').isPrefixOf ((s₀ :: s') ++ T) = true :=
            isPrefixOf_append_self _ T
          simp only [List.cons_append]
          unfold pySplitOnce
          rw [show (s₀ :: (s' ++ T)) = (s₀ :: s') ++ T from by simp]
          rw [hpre]
          simp [List.drop_left]
  | cons c B' ih =>
      intro T hne hbf hB
      have hB' : containsSub sep B' = false := by
        rw [containsSub_cons] at hB
        exact (Bool.or_eq_false_iff.mp hB).2
      have hnp : sep.isPrefixOf (c :: (B' ++ sep ++ T)) = false := by
        cases hq : sep.isPrefixOf (c :: (B' ++ sep ++ T)) with
        | false => rfl
        | true =>
            exfalso
            have h1 : sep.isPrefixOf ((c :: B') ++ (sep ++ T)) = true := by
              simp only [List.cons_append, List.append_assoc] at hq ⊢
              exact hq
            rcases le_or_lt sep.length (c :: B').length with hle | hlt
            · have h2 : sep.isPrefixOf (c :: B') = true :=
                isPrefixOf_left_of_le sep (c :: B') (sep ++ T) h1 hle
              rw [containsSub_cons, h2] at hB
              simp at hB
            · have h2 : (sep.drop (c :: B').length).isPrefixOf (sep ++ T) = true :=
                isPrefixOf_drop_of_ge (c :: B') sep (sep ++ T) h1 (Nat.le_of_lt hlt)
              have h3 : (sep.drop (c :: B').length).isPrefixOf sep = true := by
                apply isPrefixOf_left_of_le _ sep T h2
                simp [Nat.sub_le]
              have h4 := hbf
              unfold borderFree at h4
              rw [List.all_eq_true] at h4
              have h5 := h4 (c :: B').length (List.mem_range.mpr hlt)
              simp only [Bool.or_eq_true, beq_iff_eq, Bool.not_eq_true'] at h5
              rcases h5 with h5 | h5
              · simp at h5
              · rw [h3] at h5; simp at h5
      show pySplitOnce sep ((c :: B') ++ sep ++ T) = some (c :: B', T)
      rw [show ((c :: B') ++ sep ++ T : List Char) = c :: (B' ++ sep ++ T) by simp]
      unfold pySplitOnce
      rw [hnp]
      simp only [Bool.false_eq_true, if_false]
      rw [ih T hne hbf hB']

theorem containsSub_append_middle :
    ∀ (sep X Y : List Char), sep ≠ [] → containsSub sep (X ++ sep ++ Y) = true := by
  intro sep X
  induction X with
  | nil =>
      intro Y hne
      rw [show ([] ++ sep ++ Y : List Char) = sep ++ Y by simp]
      exact containsSub_of_isPrefixOf (isPrefixOf_append_self sep Y)
  | cons c X' ih =>
      intro Y hne
      rw [show ((c :: X') ++ sep ++ Y : List Char) = c :: (X' ++ sep ++ Y) by simp]
      rw [containsSub_cons, ih Y hne, Bool.or_true]

theorem takeWhile_append_not (p : Char → Bool) :
    ∀ (l₁ : List Char) (b : Char) (l₂ : List Char),
      (∀ c ∈ l₁, p c = true) → p b = false →
        (l₁ ++ b :: l₂).takeWhile p = l₁
  | [], b, l₂, _, hb => by simp [List.takeWhile, hb]
  | a :: l₁, b, l₂, hall, hb => by
      have ha : p a = true := hall a (by simp)
      rw [List.cons_append, List.takeWhile_cons_of_pos ha,
        takeWhile_append_not p l₁ b l₂ (fun c hc => hall c (by simp [hc])) hb]

theorem dropWhile_append_not (p : Char → Bool) :
    ∀ (l₁ : List Char) (b : Char) (l₂ : List Char),
      (∀ c ∈ l₁, p c = true) → p b = false →
        (l₁ ++ b :: l₂).dropWhile p = b :: l₂
  | [], b, l₂, _, hb => by simp [List.dropWhile, hb]
  | a :: l₁, b, l₂, hall, hb => by
      have ha : p a = true := hall a (by simp)
      rw [List.cons_append, List.dropWhile_cons_of_pos ha,
        dropWhile_append_not p l₁ b l₂ (fun c hc => hall c (by simp [hc])) hb]

/-- Unfolding equation for `matchLiveLine` on a two-cons scrutinee. -/
theorem matchLiveLine_cons (c₁ c₂ : Char) (rest : List Char) :
    matchLiveLine (c₁ :: c₂ :: rest) =
      if (isPySpace c₁ && isPySpace c₂) = true then
        let tok := rest.takeWhile isCmdChar
        if tok.isEmpty then none
        else
          match rest.dropWhile isCmdChar with
          | ':' :: c₃ :: _ => if isPySpace c₃ then some tok else none
          | _ => none
      else none := rfl

theorem matchLiveLine_some_iff (line tok : List Char) :
    matchLiveLine line = some tok ↔ LiveLineWs line tok := by
  constructor
  · intro h
    unfold matchLiveLine at h
    split at h
    · rename_i c₁ c₂ rest
      split at h
      · rename_i hsp
        split at h
        · rename_i c₃ tail hdrop
          dsimp only at h
          split at h
          · simp at h
          · rename_i hne
            split at h
            · rename_i hsp₃
              simp only [Option.some.injEq] at h
              subst h
              have hsp' : isPySpace c₁ = true ∧ isPySpace c₂ = true := by
                simpa using hsp
              refine ⟨by simpa using hne, fun c hc => List.mem_takeWhile_imp hc, ?_⟩
              refine ⟨c₁, c₂, c₃, tail, hsp'.1, hsp'.2, hsp₃, ?_⟩
              have hsplit := List.takeWhile_append_dropWhile (p := isCmdChar) (l := rest)
              rw [hdrop] at hsplit
              rw [hsplit]
            · simp at h
        · dsimp only at h
          split at h <;> simp at h
      · simp at h
    · simp at h
  · rintro ⟨hne, hall, c₁, c₂, c₃, rest, h₁, h₂, h₃, hline⟩
    subst hline
    have hcolon : isCmdChar ':' = false := by decide
    rw [matchLiveLine_cons]
    rw [takeWhile_append_not isCmdChar tok ':' (c₃ :: rest) hall hcolon,
        dropWhile_append_not isCmdChar tok ':' (c₃ :: rest) hall hcolon]
    simp [h₁, h₂, h₃, hne]

theorem mem_foldl_matcher (f : List Char → Option (List Char)) :
    ∀ (lines : List (List Char)) (init : Finset (List Char)) (tok : List Char),
      (tok ∈ lines.foldl (fun cmds line =>
          match f line with
          | some t => insert t cmds
          | none => cmds) init) ↔
        tok ∈ init ∨ ∃ line ∈ lines, f line = some tok := by
  intro lines
  induction lines with
  | nil => intro init tok; simp
  | cons l ls ih =>
      intro init tok
      simp only [List.foldl_cons]
      cases hf : f l with
      | none =>
          rw [ih]
          simp only [List.mem_cons]
          constructor
          · rintro (h | ⟨line, hm, he⟩)
            · exact Or.inl h
            · exact Or.inr ⟨line, Or.inr hm, he⟩
          · rintro (h | ⟨line, hm | hm, he⟩)
            · exact Or.inl h
            · subst hm; rw [hf] at he; exact absurd he (by simp)
            · exact Or.inr ⟨line, hm, he⟩
      | some t =>
          rw [ih]
          simp only [Finset.mem_insert, List.mem_cons]
          constructor
          · rintro ((h | h) | ⟨line, hm, he⟩)
            · exact Or.inr ⟨l, Or.inl rfl, by rw [hf, h]⟩
            · exact Or.inl h
            · exact Or.inr ⟨line, Or.inr hm, he⟩
          · rintro (h | ⟨line, hm | hm, he⟩)
            · exact Or.inl (Or.inr h)
            · subst hm; rw [hf] at he; simp at he; exact Or.inl (Or.inl he.symm)
            · exact Or.inr ⟨line, hm, he⟩

/-- C1 (amended): a token is in the set returned by `parse_live_commands` exactly
when some line of the help text consists of two leading whitespace characters
(the regex class accepts any whitespace, tabs included, not only spaces), then
the non-empty lowercase-alnum-hyphen token, then a colon and a whitespace
character. -/
theorem parse_live_commands_whitespace_shape :
    ∀ (t tok : List Char), tok ∈ parse_live_commands t ↔
      ∃ line ∈ pySplitlines t, LiveLineWs line tok := by
  intro t tok
  unfold parse_live_commands
  rw [mem_foldl_matcher]
  simp only [Finset.not_mem_empty, false_or]
  constructor
  · rintro ⟨line, hm, he⟩
    exact ⟨line, hm, (matchLiveLine_some_iff line tok).mp he⟩
  · rintro ⟨line, hm, he⟩
    exact ⟨line, hm, (matchLiveLine_some_iff line tok).mpr he⟩

/-- C1 is false as stated: on the one-line help text indented with two tab
characters the code still collects the token `cmd`, so the returned set differs
from the set of tokens of the exact two-space shape the claim describes. -/
theorem parse_live_commands_tab_counterexample :
    tl "cmd" ∈ parse_live_commands (tl "\t\tcmd: x") ∧
      parse_live_commands (tl "\t\tcmd: x") ≠ claimLiveTokens (tl "\t\tcmd: x") := by decide

/-- C1 witness: the amended equivalence applied at a concrete two-space line
puts `cmd` in the returned set. -/
theorem parse_live_commands_whitespace_shape_witness :
    tl "cmd" ∈ parse_live_commands (tl "  cmd: rest") :=
  (parse_live_commands_whitespace_shape (tl "  cmd: rest") (tl "cmd")).mpr
    ⟨tl "  cmd: rest", by decide,
     by decide, by decide,
     ⟨' ', ' ', ' ', tl "rest", by decide, by decide, by decide, by decide⟩⟩

/-- C7 (amended): no command identifier returned by `parse_documented_commands`
starts with `--` (the source filters them); the same guarantee does not hold
for `parse_live_commands`. -/
theorem parse_documented_commands_no_flags :
    ∀ (text s : List Char), s ∈ parse_documented_commands text → isDashDash s = false := by
  intro text s hs
  unfold parse_documented_commands at hs
  rw [Finset.mem_filter] at hs
  exact hs.2

/-- C7 is false as stated for `parse_live_commands`: it applies no `--` filter,
and `[a-z0-9-]` includes the hyphen, so the line
`"  --verbose: enable"` puts `--verbose` into the live command set. -/
theorem parse_live_commands_dashdash_counterexample :
    tl "--verbose" ∈ parse_live_commands (tl "  --verbose: enable") ∧
      isDashDash (tl "--verbose") = true := by decide

/-- C7 witness: the amended invariant applied to a concrete documented-commands
file containing the list item for `apps`. -/
theorem parse_documented_commands_no_flags_witness :
    isDashDash (tl "apps") = false :=
  parse_documented_commands_no_flags (tl "- `apps` - manage") (tl "apps") (by decide)

/-- C3: `extract_top_level_command` tokenizes on whitespace and skips leading
`--` tokens — a flag with `=` consumes no operand, a value-taking root flag
consumes the next token, any other flag consumes nothing extra — and the first
non-flag token is returned unless it starts with `<`; the skip loop agrees with
the claim-side first-non-flag rule on every token list, and the three concrete
examples evaluate as the claim states. -/
theorem extract_top_level_command_spec :
    (∀ ts : List (List Char), (skipFlags ts).head? = skipFlagsSpec ts) ∧
      extract_top_level_command (tl "asc --profile work apps list") = some (tl "apps") ∧
      extract_top_level_command (tl "asc --verbose builds upload") = some (tl "builds") ∧
      extract_top_level_command (tl "asc <command> --help") = none := by
  refine ⟨?_, by decide, by decide, by decide⟩
  intro ts
  induction ts using skipFlags.induct <;>
    (rw [skipFlags.eq_def, skipFlagsSpec.eq_def]; simp_all)

theorem sortStr_eq_nil_iff (s : Finset String) :
    Finset.sort strLe s = [] ↔ s = ∅ := by
  constructor
  · intro h
    have hl := Finset.length_sort (α := String) strLe (s := s)
    rw [h] at hl
    exact Finset.card_eq_zero.mp hl.symm
  · intro h
    rw [h, Finset.sort_empty]

/-- C2: the checker exits 1 iff at least one of `live \\ documented`,
`documented \\ live`, or the README error list is non-empty, and exits 0
otherwise; for documented `{apps, builds}` and live `{apps, builds, submit}`
with no README errors it computes `missing = {submit}`, `extra = ∅`, prints the
diagnostic listing the missing category, and exits 1. -/
theorem checker_main_spec :
    (∀ (L D : Finset String) (E : List String),
        ((checker_main L D E).2 = 1 ↔ (L \ D ≠ ∅ ∨ D \ L ≠ ∅ ∨ E ≠ [])) ∧
        ((checker_main L D E).2 = 0 ↔ (L \ D = ∅ ∧ D \ L = ∅ ∧ E = []))) ∧
      (({"apps", "builds", "submit"} : Finset String) \ {"apps", "builds"} = {"submit"} ∧
       ({"apps", "builds"} : Finset String) \ {"apps", "builds", "submit"} = ∅ ∧
       (checker_main {"apps", "builds", "submit"} {"apps", "builds"} []).2 = 1 ∧
       (checker_main {"apps", "builds", "submit"} {"apps", "builds"} []).1 =
         ["Command docs are out of sync with live CLI help:",
          "- Missing in docs/COMMANDS.md: submit",
          "Run \x27go run . --help\x27 and update docs/COMMANDS.md and README.md examples."]) := by
  constructor
  · intro L D E
    constructor
    · simp only [checker_main]
      by_cases hm : L \ D = ∅ <;> by_cases he : D \ L = ∅ <;> by_cases hE : E = [] <;>
        simp [hm, he, hE, Finset.sort_empty, List.isEmpty_iff, sortStr_eq_nil_iff]
    · simp only [checker_main]
      by_cases hm : L \ D = ∅ <;> by_cases he : D \ L = ∅ <;> by_cases hE : E = [] <;>
        simp [hm, he, hE, Finset.sort_empty, List.isEmpty_iff, sortStr_eq_nil_iff]
  · have h1 : ({"apps", "builds", "submit"} : Finset String) \ {"apps", "builds"} =
        {"submit"} := by decide
    have h2 : ({"apps", "builds"} : Finset String) \ {"apps", "builds", "submit"} = ∅ := by
      decide
    refine ⟨h1, h2, ?_, ?_⟩
    · simp [checker_main, h1, h2, Finset.sort_singleton, Finset.sort_empty]
    · simp [checker_main, h1, h2, Finset.sort_singleton, Finset.sort_empty]
      decide

/-- C4: rendering is a deterministic function of the help text, check mode
against the exactly rendered document exits 0, check mode against any differing
content exits 1, and check mode never writes the output file. -/
theorem generate_docs_deterministic_check :
    (∀ h₁ h₂ : List Char, h₁ = h₂ → generatedDoc h₁ = generatedDoc h₂) ∧
      (∀ h : List Char, generate_main true h (some (generatedDoc h)) = .noWrite 0) ∧
      (∀ (h cur : List Char), cur ≠ generatedDoc h →
        generate_main true h (some cur) = .noWrite 1) ∧
      (∀ (h : List Char) (cur : Option (List Char)),
        ∃ e, generate_main true h cur = .noWrite e) := by
  refine ⟨fun h₁ h₂ he => congrArg generatedDoc he, fun h => ?_, fun h cur hne => ?_, ?_⟩
  · simp [generate_main]
  · simp [generate_main, hne]
  · intro h cur
    by_cases hc : cur.getD [] = generatedDoc h <;> simp [generate_main, hc]

/-- C4 witness: both check-mode conclusions applied at the empty help text. -/
theorem generate_docs_deterministic_check_witness :
    generate_main true (tl "") (some (generatedDoc (tl ""))) = .noWrite 0 ∧
      generate_main true (tl "") (some (tl "x")) = .noWrite 1 :=
  ⟨generate_docs_deterministic_check.2.1 (tl ""),
   generate_docs_deterministic_check.2.2.1 (tl "") (tl "x") (by decide)⟩

/-- C6: for the two-entry wall-of-apps input, both platform lists normalize to
`["IOS"]` (aliases resolved case-insensitively) and the entries sort with the
app named `A` before the app named `B`. -/
theorem wall_entries_normalize_and_sort :
    entries_of_json (.jarr
      [.jobj [(tl "app", .jstr (tl "B")), (tl "link", .jstr (tl "https://x")),
              (tl "creator", .jstr (tl "Y")), (tl "platform", .jarr [.jstr (tl "ios")])],
       .jobj [(tl "app", .jstr (tl "A")), (tl "link", .jstr (tl "https://x")),
              (tl "creator", .jstr (tl "Y")), (tl "platform", .jarr [.jstr (tl "IOS")])]]) =
      .ok [{ app := tl "A", link := tl "https://x", creator := tl "Y",
             platform := [tl "IOS"] },
           { app := tl "B", link := tl "https://x", creator := tl "Y",
             platform := [tl "IOS"] }] := by decide

/-- C8 (amended): a missing README and absent markers abort through
`SystemExit` with their specific descriptive messages; but when both markers
are present and no end marker occurs after the first start marker, the script
aborts with the unhandled `ValueError` from tuple unpacking — a non-zero exit
without the descriptive message. -/
theorem sync_readme_failure_modes :
    (∀ snippet : List Char, sync_readme snippet none = .error .missingReadme) ∧
    (∀ snippet content : List Char,
        (containsSub startMarker content = false ∨ containsSub endMarker content = false) →
        sync_readme snippet (some content) = .error .markersNotFound) ∧
    raisesDescriptiveExit .missingReadme = true ∧
    raisesDescriptiveExit .markersNotFound = true ∧
    (sync_readme (tl "x") (some (endMarker ++ startMarker)) = .error .valueError ∧
      raisesDescriptiveExit .valueError = false) := by
  refine ⟨fun snippet => rfl, ?_, rfl, rfl, by decide⟩
  intro snippet content h
  rcases h with h | h <;> simp [sync_readme, h]

/-- C8 is false as stated: on a README whose end marker precedes its start
marker, the splice fails with the bare unpacking `ValueError`, not with a
descriptive `SystemExit` message. -/
theorem sync_readme_malformed_counterexample :
    sync_readme (tl "x") (some (endMarker ++ startMarker)) = .error .valueError ∧
      raisesDescriptiveExit .valueError = false := by decide

/-- C8 witness: the amended marker-absence conclusion applied to a README
without markers. -/
theorem sync_readme_failure_modes_witness :
    sync_readme (tl "snippet") (some (tl "plain readme")) = .error .markersNotFound :=
  sync_readme_failure_modes.2.1 (tl "snippet") (tl "plain readme") (Or.inl (by decide))

/-- C9: whenever `read_entries` fails (missing, empty, or invalid-JSON source,
non-array top level, or an invalid entry such as platform `android` in the
second entry), `main` stops before writing either the generated fragment or
the README. -/
theorem wall_main_validates_before_writing :
    (∀ (src : SourceFile) (readme : Option (List Char)) (e : WallError),
        read_entries src = .error e → wallMain src readme = .fatalBeforeWrite e) ∧
    read_entries .missing = .error .missingSource ∧
    read_entries (.present (tl "   ") none) = .error .emptySource ∧
    read_entries (.present (tl "oops") none) = .error .invalidJson ∧
    read_entries (.present (tl "\x22y\x22") (some (.jstr (tl "y")))) = .error .notArray ∧
    read_entries (.present
        (tl "[entries]")
        (some (.jarr
          [.jobj [(tl "app", .jstr (tl "A")), (tl "link", .jstr (tl "https://x")),
                  (tl "creator", .jstr (tl "Y")),
                  (tl "platform", .jarr [.jstr (tl "ios")])],
           .jobj [(tl "app", .jstr (tl "B")), (tl "link", .jstr (tl "https://x")),
                  (tl "creator", .jstr (tl "Y")),
                  (tl "platform", .jarr [.jstr (tl "android")])]]))) =
      .error (.invalidPlatform 2 (tl "android")) := by
  refine ⟨?_, by decide, by decide, by decide, by decide, by decide⟩
  intro src readme e h
  unfold wallMain
  rw [h]

/-- C9 witness: the no-write conclusion applied to a missing source file. -/
theorem wall_main_validates_before_writing_witness :
    wallMain .missing none = .fatalBeforeWrite .missingSource :=
  wall_main_validates_before_writing.1 .missing none .missingSource (by decide)

theorem platformFold_map_str (i : Nat) :
    ∀ (vs : List JValue) (acc : List (List Char)),
      platformFold i (vs.map (fun v => .jstr (pyStr v))) acc = platformFold i vs acc := by
  intro vs
  induction vs with
  | nil => intro acc; rfl
  | cons v rest ih =>
      intro acc
      simp only [List.map_cons]
      unfold platformFold
      have hnp : normalize_platform (.jstr (pyStr v)) = normalize_platform v := rfl
      rw [hnp]
      cases normalize_platform v with
      | none => rfl
      | some p => exact ih _

/-- C10: `normalize_entry` coerces the `app`, `link`, `creator` and platform
values through `str` before validating, so replacing any of them by the string
form of their value changes nothing, and a concrete entry with a numeric app
and boolean creator is accepted. -/
theorem normalize_entry_coerces_strings :
    (∀ (a l c : JValue) (ps : List JValue) (i : Nat),
        normalize_entry (.jobj [(tl "app", a), (tl "link", l), (tl "creator", c),
          (tl "platform", .jarr ps)]) i =
        normalize_entry (.jobj [(tl "app", .jstr (pyStr a)), (tl "link", .jstr (pyStr l)),
          (tl "creator", .jstr (pyStr c)),
          (tl "platform", .jarr (ps.map (fun v => .jstr (pyStr v))))]) i) ∧
    normalize_entry (.jobj [(tl "app", .jnum 123), (tl "link", .jstr (tl "https://x")),
        (tl "creator", .jbool true), (tl "platform", .jarr [.jstr (tl "ios")])]) 1 =
      .ok { app := tl "123", link := tl "https://x", creator := tl "True",
            platform := [tl "IOS"] } := by
  refine ⟨?_, by decide⟩
  intro a l c ps i
  have e1 : ∀ (x y z w : JValue),
      jget [(tl "app", x), (tl "link", y), (tl "creator", z), (tl "platform", w)]
        (tl "app") = some x := fun _ _ _ _ => rfl
  have e2 : ∀ (x y z w : JValue),
      jget [(tl "app", x), (tl "link", y), (tl "creator", z), (tl "platform", w)]
        (tl "link") = some y := fun _ _ _ _ => rfl
  have e3 : ∀ (x y z w : JValue),
      jget [(tl "app", x), (tl "link", y), (tl "creator", z), (tl "platform", w)]
        (tl "creator") = some z := fun _ _ _ _ => rfl
  have e4 : ∀ (x y z w : JValue),
      jget [(tl "app", x), (tl "link", y), (tl "creator", z), (tl "platform", w)]
        (tl "platform") = some w := fun _ _ _ _ => rfl
  have hps : ∀ s, pyStr (JValue.jstr s) = s := fun _ => rfl
  cases ps with
  | nil => rfl
  | cons v rest =>
      unfold normalize_entry
      simp only [e1, e2, e3, e4, Option.getD_some, hps, List.map_cons]
      rw [show (JValue.jstr (pyStr v) :: List.map (fun v => JValue.jstr (pyStr v)) rest) =
            List.map (fun v => JValue.jstr (pyStr v)) (v :: rest) from by simp]
      rw [platformFold_map_str]
      simp

theorem containsSub_cons_false (sep : List Char) (c : Char) (l : List Char)
    (hpre : sep.isPrefixOf (c :: l) = false) (h : containsSub sep l = false) :
    containsSub sep (c :: l) = false := by
  rw [containsSub_cons, hpre, h]
  rfl

/-- C5 (amended): when the splice succeeds and the snippet contains neither
marker, the content before the first start marker and the content after the
first end marker following it are preserved byte-for-byte in the result, and
splicing the result again with the same snippet returns it unchanged. -/
theorem sync_readme_frame_and_idempotent :
    ∀ (snippet content out : List Char),
      sync_readme snippet (some content) = .ok out →
      containsSub startMarker snippet = false →
      containsSub endMarker snippet = false →
      (∃ before mid junk after,
          pySplitOnce startMarker content = some (before, mid) ∧
          pySplitOnce endMarker mid = some (junk, after) ∧
          out = before ++ startMarker ++ '\n' :: (snippet ++ endMarker ++ after)) ∧
      sync_readme snippet (some out) = .ok out := by
  intro snippet content out hok hs he
  unfold sync_readme at hok
  split at hok
  · exact absurd hok (by simp)
  · rename_i content' heq
    injection heq with heq
    subst heq
    split at hok
    · exact absurd hok (by simp)
    · rename_i hguard
      split at hok
      · exact absurd hok (by simp)
      · rename_i before remainder h1
        split at hok
        · exact absurd hok (by simp)
        · rename_i junk after h2
          simp only [Except.ok.injEq] at hok
          subst hok
          refine ⟨⟨before, remainder, junk, after, h1, h2, rfl⟩, ?_⟩
          have hSne : startMarker ≠ ([] : List Char) := by decide
          have hEne : endMarker ≠ ([] : List Char) := by decide
          have hbfS : borderFree startMarker = true := by decide
          have hbfE : borderFree endMarker = true := by decide
          have hbef : containsSub startMarker before = false :=
            pySplitOnce_left_not_contains startMarker content before remainder hSne h1
          have hsplit1 : pySplitOnce startMarker
              (before ++ startMarker ++ '\n' :: (snippet ++ endMarker ++ after)) =
              some (before, '\n' :: (snippet ++ endMarker ++ after)) :=
            pySplitOnce_append startMarker before _ hSne hbfS hbef
          have hpre0 : endMarker.isPrefixOf ('\n' :: snippet) = false := by
            rw [show endMarker = '<' :: tl "!-- WALL-OF-APPS:END -->" from rfl]
            simp only [List.isPrefixOf]
            simp [show ('<' == '\n') = false from by decide]
          have hsplit2 : pySplitOnce endMarker (('\n' :: snippet) ++ endMarker ++ after) =
              some ('\n' :: snippet, after) :=
            pySplitOnce_append endMarker ('\n' :: snippet) after hEne hbfE
              (containsSub_cons_false endMarker '\n' snippet hpre0 he)
          have hTsplit : pySplitOnce endMarker ('\n' :: (snippet ++ endMarker ++ after)) =
              some ('\n' :: snippet, after) := by
            rw [show ('\n' :: (snippet ++ endMarker ++ after) : List Char) =
              ('\n' :: snippet) ++ endMarker ++ after from by simp]
            exact hsplit2
          have hc1 : containsSub startMarker
              (before ++ startMarker ++ '\n' :: (snippet ++ endMarker ++ after)) = true := by
            unfold containsSub
            rw [hsplit1]
            rfl
          have hc2 : containsSub endMarker
              (before ++ startMarker ++ '\n' :: (snippet ++ endMarker ++ after)) = true := by
            rw [show (before ++ startMarker ++ '\n' :: (snippet ++ endMarker ++ after) :
                List Char) =
                (before ++ startMarker ++ '\n' :: snippet) ++ endMarker ++ after from by simp]
            exact containsSub_append_middle endMarker _ after hEne
          unfold sync_readme
          simp only [hc1, hc2, hsplit1, hTsplit]
          simp

/-- C5 is false for arbitrary snippets: splicing a snippet that itself contains
the end marker twice does not equal splicing it once. -/
theorem sync_readme_not_idempotent_counterexample :
    (sync_readme endMarker (some (startMarker ++ endMarker))).bind
        (fun o => sync_readme endMarker (some o)) ≠
      sync_readme endMarker (some (startMarker ++ endMarker)) := by decide

/-- C5 witness: frame preservation and idempotence at a concrete README and
snippet. -/
theorem sync_readme_frame_and_idempotent_witness :
    (∃ before mid junk after,
        pySplitOnce startMarker
            (tl "head" ++ startMarker ++ tl "\nold\n" ++ endMarker ++ tl "tail") =
          some (before, mid) ∧
        pySplitOnce endMarker mid = some (junk, after) ∧
        (tl "head" ++ startMarker ++ '\n' :: (tl "NEW" ++ endMarker ++ tl "tail")) =
          before ++ startMarker ++ '\n' :: (tl "NEW" ++ endMarker ++ after)) ∧
      sync_readme (tl "NEW")
          (some (tl "head" ++ startMarker ++ '\n' :: (tl "NEW" ++ endMarker ++ tl "tail"))) =
        .ok (tl "head" ++ startMarker ++ '\n' :: (tl "NEW" ++ endMarker ++ tl "tail")) :=
  sync_readme_frame_and_idempotent (tl "NEW")
    (tl "head" ++ startMarker ++ tl "\nold\n" ++ endMarker ++ tl "tail")
    (tl "head" ++ startMarker ++ '\n' :: (tl "NEW" ++ endMarker ++ tl "tail"))
    (by decide) (by decide) (by decide)
